import Mathlib

/-!
Verification of the Conversation Orchestration Engine of the `mcp_service_llm`
repository, as a shallow embedding in Lean 4.

The embedding covers:
* the provider-agnostic message model (`src/libs/llm/interfaces/llm.types.ts`);
* the Gemini and OpenAI history managers
  (`src/libs/llm/history/gemini-history.manager.ts`,
   `src/libs/llm/history/openai-history.manager.ts`);
* the tool registry and executor (`src/modules/llm/services/tool-handler.service.ts`);
* the session cache (`src/modules/chat/services/session-cache.service.ts`);
* the two orchestration loops (`ChatService.runLLMLoop`,
  `OrchestratorService.runLLMLoopNative`).

JavaScript `any` payloads (tool arguments, tool result data) are embedded as a
JSON value type; serialized-JSON string fields (`arguments`, tool-result
`content`) are represented by the JSON value they serialize, so
`JSON.parse ∘ JSON.stringify` is the identity of the embedding.  JavaScript
truthiness tests that the source performs on strings and JSON values are
modelled explicitly (`jsonTruthy`, empty-string checks).  Asynchronous code is
embedded as pure state passing; a tool handler that may throw returns
`Except String`.
-/

/-- JSON-like values standing for the TypeScript `any` payloads
(tool arguments, tool result data, serialized contents). -/
inductive Json where
  | null : Json
  | bool : Bool → Json
  | num : Int → Json
  | str : String → Json
  | arr : List Json → Json
  | obj : List (String × Json) → Json

/-- JavaScript truthiness of a JSON value (`null`, `false`, `0` and `""` are
falsy; arrays and objects are truthy). -/
def jsonTruthy : Json → Bool
  | Json.null => false
  | Json.bool b => b
  | Json.num n => n != 0
  | Json.str s => s != ""
  | Json.arr _ => true
  | Json.obj _ => true

/-- JavaScript `a || d` on JSON values. -/
def jsonOr (a d : Json) : Json := if jsonTruthy a then a else d

/-- JavaScript nullish coalescing `a ?? d` on an optional JSON value
(`none` stands for `undefined`). -/
def jsonNullish (a : Option Json) (d : Json) : Json :=
  match a with
  | none => d
  | some Json.null => d
  | some v => v

/-- Message roles of the agnostic model (`Role` in `llm.types.ts`). -/
inductive Role where
  | user : Role
  | assistant : Role
  | tool : Role
deriving DecidableEq

/-- A tool call emitted by the model (`ToolCall` in `llm.types.ts`). -/
structure ToolCall where
  id : String
  name : String
  args : Json

/-- Token usage counts (`LLMResponse.usage` in `llm.types.ts`). -/
structure Usage where
  inputTokens : Nat
  outputTokens : Nat
  totalTokens : Nat
deriving DecidableEq

/-- Normalized model response (`LLMResponse` in `llm.types.ts`), parameterized
by the vendor raw-response type `ρ` (`rawResponse?: any`). -/
structure LLMResponse (ρ : Type) where
  text : Option String
  toolCalls : List ToolCall
  usage : Usage
  rawResponse : Option ρ

/-- Outcome of a tool execution (`ToolExecutionResult` in `llm.types.ts`);
`data` is optional. -/
structure ToolExecutionResult where
  success : Bool
  message : String
  data : Option Json

/-- The `toolResult` field of an agnostic message; both inner fields can be
absent at runtime (the source reads them with `?.`). -/
structure ToolResultPair where
  callId : Option String
  result : Option Json

/-- Agnostic conversation message (`LLMMessage` in `llm.types.ts`).  An absent
`toolCalls` field and an empty array are conflated, exactly as every use site
does (`msg.toolCalls && msg.toolCalls.length > 0`). -/
structure LLMMessage where
  role : Role
  content : Option String
  toolCalls : List ToolCall
  toolResult : Option ToolResultPair

/-! ## Gemini native transcript (`gemini-history.manager.ts`) -/

/-- One element of a Gemini `parts` array: a text part, a `functionCall` part
or a `functionResponse` part.  A `functionResponse` part stores the
`response.result` payload (the manager always wraps it as `{ result: … }` and
always reads it back as `response?.result`). -/
inductive GPart where
  | text : String → GPart
  | functionCall : String → Json → GPart
  | functionResponse : String → Option Json → GPart

/-- A Gemini transcript entry (`{ role, parts }`). -/
structure GEntry where
  role : String
  parts : List GPart

/-- One candidate of a raw Gemini response (`candidates[i].content`). -/
structure GCandidate where
  content : Option GEntry

/-- Raw Gemini response as consumed by `addAssistantToolCalls`
(`rawResponse?.candidates?.[0]?.content`). -/
structure GRaw where
  candidates : List GCandidate

namespace GeminiHistoryManager

/-- Source `addUserMessage`: appends `{ role: "user", parts: [{ text: content }] }`. -/
def addUserMessage (history : List GEntry) (content : String) : List GEntry :=
  history ++ [{ role := "user", parts := [GPart.text content] }]

/-- Source `addAssistantMessage`: appends `{ role: "model", parts: [{ text: content }] }`. -/
def addAssistantMessage (history : List GEntry) (content : String) : List GEntry :=
  history ++ [{ role := "model", parts := [GPart.text content] }]

/-- The entry reconstructed from the normalized tool-call list
(the fallback branch of `addAssistantToolCalls`). -/
def reconstructedToolCallEntry (toolCalls : List ToolCall) : GEntry :=
  { role := "model",
    parts := toolCalls.map (fun tc => GPart.functionCall tc.name tc.args) }

/-- Source `addAssistantToolCalls`: replays `rawResponse.candidates[0].content` when
present, otherwise reconstructs a `model` turn from the tool-call list. -/
def addAssistantToolCalls (history : List GEntry) (toolCalls : List ToolCall)
    (rawResponse : Option GRaw) : List GEntry :=
  match rawResponse with
  | some raw =>
    match raw.candidates.head? with
    | some cand =>
      match cand.content with
      | some c => history ++ [c]
      | none => history ++ [reconstructedToolCallEntry toolCalls]
    | none => history ++ [reconstructedToolCallEntry toolCalls]
  | none => history ++ [reconstructedToolCallEntry toolCalls]

/-- The `user`-role `functionResponse` entry appended by `addToolResults`. -/
def toolResultEntry (toolCall : ToolCall) (result : ToolExecutionResult) : GEntry :=
  { role := "user",
    parts := [GPart.functionResponse toolCall.name
      (some (jsonNullish result.data
        (Json.obj [("success", Json.bool result.success),
                   ("message", Json.str result.message)])))] }

/-- Source `addToolResults`: appends the tool result as a `user` turn carrying a
`functionResponse` part keyed by the tool NAME (the Gemini convention). -/
def addToolResults (history : List GEntry) (toolCall : ToolCall)
    (result : ToolExecutionResult) : List GEntry :=
  history ++ [toolResultEntry toolCall result]

/-- Source `toProviderFormat` on one agnostic message. -/
def toProviderEntry (msg : LLMMessage) : GEntry :=
  match msg.role with
  | Role.user => { role := "user", parts := [GPart.text (msg.content.getD "")] }
  | Role.assistant =>
    match msg.toolCalls with
    | [] => { role := "model", parts := [GPart.text (msg.content.getD "")] }
    | tcs => { role := "model",
               parts := tcs.map (fun tc => GPart.functionCall tc.name tc.args) }
  | Role.tool =>
    { role := "user",
      parts := [GPart.functionResponse
        (match msg.toolResult.bind (fun tr => tr.callId) with
         | some s => if s = "" then "unknown" else s
         | none => "unknown")
        (msg.toolResult.bind (fun tr => tr.result))] }

/-- Source `toProviderFormat`: each agnostic message yields exactly one Gemini entry. -/
def toProviderFormat (messages : List LLMMessage) : List GEntry :=
  messages.map toProviderEntry

/-- Selector for `parts.filter(p => p.functionCall)` followed by the mapping
of that branch. -/
def functionCallPart? : GPart → Option ToolCall
  | GPart.functionCall n a => some { id := n, name := n, args := jsonOr a (Json.obj []) }
  | _ => none

/-- Selector for `parts.filter(p => p.functionResponse)`. -/
def functionResponsePart? : GPart → Option (String × Option Json)
  | GPart.functionResponse n r => some (n, r)
  | _ => none

/-- Selector for `parts.filter(p => p.text)` — by JavaScript truthiness an
empty text string is dropped here. -/
def textPart? : GPart → Option String
  | GPart.text s => if s = "" then none else some s
  | _ => none

/-- Source `toAgnosticFormat` on one Gemini entry (0, 1 or several agnostic messages). -/
def toAgnosticEntry (entry : GEntry) : List LLMMessage :=
  let fc := entry.parts.filterMap functionCallPart?
  if fc.isEmpty then
    let fr := entry.parts.filterMap functionResponsePart?
    if fr.isEmpty then
      let ts := entry.parts.filterMap textPart?
      if ts.isEmpty then []
      else
        [{ role := if entry.role = "model" then Role.assistant else Role.user,
           content := some (String.join ts), toolCalls := [], toolResult := none }]
    else
      fr.map (fun p =>
        { role := Role.tool, content := none, toolCalls := [],
          toolResult := some { callId := some p.1, result := p.2 } })
  else
    [{ role := Role.assistant, content := none, toolCalls := fc, toolResult := none }]

/-- Source `toAgnosticFormat` over a whole native transcript. -/
def toAgnosticFormat (providerHistory : List GEntry) : List LLMMessage :=
  providerHistory.flatMap toAgnosticEntry

end GeminiHistoryManager

/-! ## OpenAI native transcript (`openai-history.manager.ts`) -/

/-- One element of an OpenAI `tool_calls` array.  The serialized
`function.arguments` string is represented by the JSON value it serializes. -/
structure OToolCall where
  id : String
  name : String
  args : Json

/-- An OpenAI transcript entry.  `assistant` entries carry an optional
`content` and a `tool_calls` list (`[]` stands for an absent or empty array,
matching the `entry.tool_calls && entry.tool_calls.length > 0` checks);
`tool` entries carry an optional `tool_call_id` and the serialized result. -/
inductive OEntry where
  | user : String → OEntry
  | assistant : Option String → List OToolCall → OEntry
  | tool : Option String → Option Json → OEntry

namespace OpenAIHistoryManager

/-- Source `addUserMessage`: appends `{ role: "user", content }`. -/
def addUserMessage (history : List OEntry) (content : String) : List OEntry :=
  history ++ [OEntry.user content]

/-- Source `addAssistantMessage`: appends `{ role: "assistant", content }`. -/
def addAssistantMessage (history : List OEntry) (content : String) : List OEntry :=
  history ++ [OEntry.assistant (some content) []]

/-- The assistant turn reconstructed from the normalized tool-call list. -/
def reconstructedToolCallEntry (toolCalls : List ToolCall) : OEntry :=
  OEntry.assistant none
    (toolCalls.map (fun tc => { id := tc.id, name := tc.name, args := tc.args }))

/-- Source `addAssistantToolCalls`: always reconstructs
`{ role: "assistant", content: null, tool_calls: ... }` from the normalized
list; the `rawResponse` parameter (of arbitrary type, `any` in the source)
never appears in the body. -/
def addAssistantToolCalls {ρ : Type} (history : List OEntry) (toolCalls : List ToolCall)
    (rawResponse : Option ρ) : List OEntry :=
  history ++ [reconstructedToolCallEntry toolCalls]

/-- The `tool`-role entry appended by `addToolResults`, keyed by the call ID
(the OpenAI convention). -/
def toolResultEntry (toolCall : ToolCall) (result : ToolExecutionResult) : OEntry :=
  OEntry.tool (some toolCall.id)
    (some (jsonNullish result.data
      (Json.obj [("success", Json.bool result.success),
                 ("message", Json.str result.message)])))

/-- Source `addToolResults`: appends the tool result as a `tool` turn with
`tool_call_id`. -/
def addToolResults (history : List OEntry) (toolCall : ToolCall)
    (result : ToolExecutionResult) : List OEntry :=
  history ++ [toolResultEntry toolCall result]

/-- Source `toProviderFormat` on one agnostic message. -/
def toProviderEntry (msg : LLMMessage) : OEntry :=
  match msg.role with
  | Role.user => OEntry.user (msg.content.getD "")
  | Role.assistant =>
    match msg.toolCalls with
    | [] => OEntry.assistant (some (msg.content.getD "")) []
    | tcs => OEntry.assistant none
        (tcs.map (fun tc => { id := tc.id, name := tc.name, args := tc.args }))
  | Role.tool =>
    OEntry.tool (msg.toolResult.bind (fun tr => tr.callId))
      (msg.toolResult.bind (fun tr => tr.result))

/-- Source `toProviderFormat`: each agnostic message yields exactly one OpenAI entry. -/
def toProviderFormat (messages : List LLMMessage) : List OEntry :=
  messages.map toProviderEntry

/-- Source `toAgnosticFormat` on one OpenAI entry. -/
def toAgnosticEntry (entry : OEntry) : LLMMessage :=
  match entry with
  | OEntry.user c =>
    { role := Role.user, content := some c, toolCalls := [], toolResult := none }
  | OEntry.assistant c tcs =>
    match tcs with
    | [] => { role := Role.assistant, content := c, toolCalls := [], toolResult := none }
    | _ =>
      { role := Role.assistant, content := none,
        toolCalls := tcs.map (fun tc => { id := tc.id, name := tc.name, args := tc.args }),
        toolResult := none }
  | OEntry.tool cid c =>
    { role := Role.tool, content := none, toolCalls := [],
      toolResult := some { callId := cid, result := some (c.getD (Json.obj [])) } }

/-- Source `toAgnosticFormat` over a whole native transcript. -/
def toAgnosticFormat (providerHistory : List OEntry) : List LLMMessage :=
  providerHistory.map toAgnosticEntry

end OpenAIHistoryManager

/-! ## Tool registry and executor (`tool-handler.service.ts`) -/

/-- A tool definition (`ToolDefinition` in `llm.types.ts`).  The JSON-Schema
`parameters` object is a JSON value. -/
structure ToolDefinition where
  name : String
  description : String
  schema : Json

/-- Request-scoped context handed to every tool handler
(`SessionContext` in `llm.types.ts`). -/
structure SessionContext where
  sessionId : String
  userId : Option String
  metadata : Option Json

/-- A tool handler.  Handlers are asynchronous in the source and may throw;
a throw is an `Except.error` carrying the fault message. -/
abbrev ToolHandlerFn : Type :=
  ToolCall → SessionContext → Except String ToolExecutionResult

/-- One registry slot: the definition and handler of `registerTool`. -/
structure RegisteredTool where
  definition : ToolDefinition
  handler : ToolHandlerFn

/-- The `toolRegistry` map, embedded as an association list in insertion
order (a JavaScript `Map` iterates in insertion order). -/
abbrev ToolRegistry : Type := List (String × RegisteredTool)

/-- Lookup by key, first match (`Map.get`/`Map.has`). -/
def regLookup (registry : ToolRegistry) (name : String) : Option RegisteredTool :=
  match registry with
  | [] => none
  | (k, v) :: rest => if k = name then some v else regLookup rest name

namespace ToolHandlerService

/-- Source `registerTool`: a silent no-op when the name is already present,
otherwise inserts at the end of the map. -/
def registerTool (registry : ToolRegistry) (definition : ToolDefinition)
    (handler : ToolHandlerFn) : ToolRegistry :=
  if (regLookup registry definition.name).isSome then registry
  else registry ++ [(definition.name, { definition := definition, handler := handler })]

/-- Source `getRegisteredTools`: the definitions, in registration order. -/
def getRegisteredTools (registry : ToolRegistry) : List ToolDefinition :=
  registry.map (fun kv => kv.2.definition)

/-- Source `getToolNames`: the registered names, in registration order. -/
def getToolNames (registry : ToolRegistry) : List String :=
  registry.map (fun kv => kv.1)

/-- Source `hasTool`. -/
def hasTool (registry : ToolRegistry) (name : String) : Bool :=
  (regLookup registry name).isSome

/-- The failure result returned for an unknown tool name. -/
def unknownToolResult (registry : ToolRegistry) (call : ToolCall) : ToolExecutionResult :=
  { success := false,
    message := "Unknown tool: " ++ call.name ++ ". Available tools: "
      ++ String.intercalate ", " (getToolNames registry),
    data := none }

/-- Source `executeTool`.  The whole body sits in a `try`; the `catch` converts any
handler fault into a failure result.  The `Except` codomain mirrors the
possibility of an uncaught exception escaping; the executor never uses it. -/
def executeTool (registry : ToolRegistry) (call : ToolCall)
    (context : SessionContext) : Except String ToolExecutionResult :=
  let body : Except String ToolExecutionResult :=
    match regLookup registry call.name with
    | none => Except.ok (unknownToolResult registry call)
    | some registered => registered.handler call context
  match body with
  | Except.ok result => Except.ok result
  | Except.error msg =>
    Except.ok { success := false,
                message := "Tool execution failed: " ++ msg,
                data := none }

/-- Source `validateToolCall`: collects the error strings in source order. -/
def validateToolCall (registry : ToolRegistry) (call : ToolCall) : Bool × List String :=
  let errs₁ : List String := if call.name = "" then ["Tool name is required"] else []
  let errs₂ : List String :=
    if call.name ≠ "" ∧ ¬ hasTool registry call.name then
      ["Tool \x27" ++ call.name ++ "\x27 is not registered"]
    else []
  let errs := errs₁ ++ errs₂
  (errs.isEmpty, errs)

end ToolHandlerService

/-! ## Session cache (`session-cache.service.ts`) -/

/-- Provider identity of a session. -/
inductive Provider where
  | gemini : Provider
  | openai : Provider
  | anthropic : Provider
deriving DecidableEq

/-- A cached session (`CachedSession`), parameterized by the native entry
type `α`; timestamps are milliseconds. -/
structure CachedSession (α : Type) where
  sessionId : String
  nativeHistory : List α
  provider : Provider
  createdAt : Nat
  lastActivityAt : Nat

/-- The `sessions` map, embedded as an association list in insertion order. -/
abbrev SessionStore (α : Type) : Type := List (String × CachedSession α)

/-- Lookup by session id (`Map.get`). -/
def storeLookup {α : Type} (store : SessionStore α) (sessionId : String) :
    Option (CachedSession α) :=
  match store with
  | [] => none
  | (k, v) :: rest => if k = sessionId then some v else storeLookup rest sessionId

/-- Replace the value under an existing key, keeping the map order
(mutating the session object held by the map). -/
def storeSet {α : Type} (store : SessionStore α) (sessionId : String)
    (session : CachedSession α) : SessionStore α :=
  store.map (fun kv => if kv.1 = sessionId then (kv.1, session) else kv)

/-- Source `Map.delete`. -/
def storeErase {α : Type} (store : SessionStore α) (sessionId : String) :
    SessionStore α :=
  store.filter (fun kv => kv.1 ≠ sessionId)

/-- Source `SESSION_CACHE_CONFIG.TTL_MS` (`30 * 60 * 1000 * 5`). -/
def TTL_MS : Nat := 30 * 60 * 1000 * 5

/-- Source `SESSION_CACHE_CONFIG.MAX_HISTORY_LENGTH`. -/
def MAX_HISTORY_LENGTH : Nat := 100

namespace SessionCacheService

/-- Source `getOrCreateSession`: creates a fresh empty-history session when absent
(a new `Map` key is appended at the end), otherwise bumps `lastActivityAt`. -/
def getOrCreateSession {α : Type} (store : SessionStore α) (sessionId : String)
    (provider : Provider) (now : Nat) : CachedSession α × SessionStore α :=
  match storeLookup store sessionId with
  | none =>
    let s : CachedSession α :=
      { sessionId := sessionId, nativeHistory := [], provider := provider,
        createdAt := now, lastActivityAt := now }
    (s, store ++ [(sessionId, s)])
  | some s =>
    let s' := { s with lastActivityAt := now }
    (s', storeSet store sessionId s')

/-- Source `deleteSession` (the boolean result is whether a key was removed). -/
def deleteSession {α : Type} (store : SessionStore α) (sessionId : String) :
    Bool × SessionStore α :=
  ((storeLookup store sessionId).isSome, storeErase store sessionId)

/-- Source `getSession`: absent → `null`; expired (age strictly above the TTL) →
deleted and `null`; otherwise `lastActivityAt` is set to now, both in the
returned session and in the store (the source mutates the shared object). -/
def getSession {α : Type} (store : SessionStore α) (sessionId : String)
    (now : Nat) : Option (CachedSession α) × SessionStore α :=
  match storeLookup store sessionId with
  | none => (none, store)
  | some s =>
    if now - s.lastActivityAt > TTL_MS then
      (none, (deleteSession store sessionId).2)
    else
      let s' := { s with lastActivityAt := now }
      (some s', storeSet store sessionId s')

/-- Source `updateHistory`: a silent no-op when the session is absent; otherwise
stores the history (truncated with `slice(-MAX_HISTORY_LENGTH)` when longer
than the cap) and bumps `lastActivityAt`. -/
def updateHistory {α : Type} (store : SessionStore α) (sessionId : String)
    (nativeHistory : List α) (now : Nat) : SessionStore α :=
  match storeLookup store sessionId with
  | none => store
  | some s =>
    let trimmed :=
      if nativeHistory.length > MAX_HISTORY_LENGTH then
        nativeHistory.drop (nativeHistory.length - MAX_HISTORY_LENGTH)
      else nativeHistory
    storeSet store sessionId
      { s with nativeHistory := trimmed, lastActivityAt := now }

end SessionCacheService

/-! ## Orchestration loops (`chat.service.ts`, `orchestrator.service.ts`) -/

/-- The provider-aware history-manager interface (`IChatHistoryManager` in
`chat-history.types.ts`), over native entry type `α` and raw-response type
`ρ`.  Both loops are generic in this interface. -/
structure IChatHistoryManager (α ρ : Type) where
  addUserMessage : List α → String → List α
  addAssistantMessage : List α → String → List α
  addAssistantToolCalls : List α → List ToolCall → Option ρ → List α
  addToolResults : List α → ToolCall → ToolExecutionResult → List α

/-- The Gemini history manager, packaged for the loops
(`getHistoryManager("gemini")`). -/
def geminiHM : IChatHistoryManager GEntry GRaw :=
  { addUserMessage := GeminiHistoryManager.addUserMessage,
    addAssistantMessage := GeminiHistoryManager.addAssistantMessage,
    addAssistantToolCalls := GeminiHistoryManager.addAssistantToolCalls,
    addToolResults := GeminiHistoryManager.addToolResults }

/-- The OpenAI history manager, packaged for the loops
(`getHistoryManager("openai")`, also returned for "anthropic"). -/
def openaiHM (ρ : Type) : IChatHistoryManager OEntry ρ :=
  { addUserMessage := OpenAIHistoryManager.addUserMessage,
    addAssistantMessage := OpenAIHistoryManager.addAssistantMessage,
    addAssistantToolCalls := fun h tcs raw => OpenAIHistoryManager.addAssistantToolCalls h tcs raw,
    addToolResults := OpenAIHistoryManager.addToolResults }

/-- JavaScript `array.slice(-1)`: the last element as a one-element list. -/
def lastOne {β : Type} (l : List β) : List β := l.drop (l.length - 1)

/-- Source `MAX_DEPTH` of `ChatService.runLLMLoop`. -/
def CHAT_MAX_DEPTH : Nat := 128

/-- Source `MAX_DEPTH` of `OrchestratorService.runLLMLoopNative`. -/
def ORCH_MAX_DEPTH : Nat := 10

/-- The canned ceiling reply of `ChatService.runLLMLoop`. -/
def cannedChatResponse (ρ : Type) : LLMResponse ρ :=
  { text := some "Too many tool calls. Please try again.",
    toolCalls := [],
    usage := { inputTokens := 0, outputTokens := 0, totalTokens := 0 },
    rawResponse := none }

/-- The canned ceiling reply of `OrchestratorService.runLLMLoopNative`. -/
def cannedOrchResponse (ρ : Type) : LLMResponse ρ :=
  { text := some "I apologize, but I encountered too many tool calls. Please try again.",
    toolCalls := [],
    usage := { inputTokens := 0, outputTokens := 0, totalTokens := 0 },
    rawResponse := none }

/-- One tool-call round of either loop: append the tool-call turn of the model
(via `addAssistantToolCalls`, passing the raw response), then execute each
requested call in emission order, appending each result via `addToolResults`. -/
def roundStep {α ρ : Type} (hm : IChatHistoryManager α ρ)
    (exec : ToolCall → ToolExecutionResult) (history : List α)
    (response : LLMResponse ρ) : List α :=
  response.toolCalls.foldl
    (fun acc tc => hm.addToolResults acc tc (exec tc))
    (hm.addAssistantToolCalls history response.toolCalls response.rawResponse)

/-- The native history seen by the `k`-th model invocation (0-based) when the
loop starts from `history` and every earlier round returned tool calls. -/
def histAt {α ρ : Type} (model : List α → LLMResponse ρ)
    (exec : ToolCall → ToolExecutionResult) (hm : IChatHistoryManager α ρ) :
    List α → Nat → List α
  | history, 0 => history
  | history, k + 1 =>
    histAt model exec hm (roundStep hm exec history (model history)) k

/-- Observable outcome of one run of `ChatService.runLLMLoop`: the returned
response, the native history array after the run, the session store after the
run, and the number of model invocations made. -/
structure ChatLoopResult (α ρ : Type) where
  response : LLMResponse ρ
  nativeHistory : List α
  store : SessionStore α
  rounds : Nat

/-- Source `ChatService.runLLMLoop`, fuel-indexed (`fuel = MAX_DEPTH - depth`).
At fuel 0 the depth ceiling is hit and the canned reply is returned without
touching history or store.  With tool calls absent, the assistant text (when
truthy) is appended via `addAssistantMessage([], text).slice(-1)`, the history
is persisted, and the response returned.  With tool calls present, the round
is applied, persisted, and the loop recurses. -/
def chatLoopAux {α ρ : Type} (model : List α → LLMResponse ρ)
    (exec : ToolCall → ToolExecutionResult) (hm : IChatHistoryManager α ρ)
    (sessionId : String) (now : Nat) :
    Nat → List α → SessionStore α → ChatLoopResult α ρ
  | 0, history, store => ⟨cannedChatResponse ρ, history, store, 0⟩
  | fuel + 1, history, store =>
    let response := model history
    match response.toolCalls with
    | [] =>
      let history' :=
        match response.text with
        | some t => if t = "" then history
                    else history ++ lastOne (hm.addAssistantMessage [] t)
        | none => history
      ⟨response, history',
        SessionCacheService.updateHistory store sessionId history' now, 1⟩
    | _ :: _ =>
      let history' := roundStep hm exec history response
      let store' := SessionCacheService.updateHistory store sessionId history' now
      let out := chatLoopAux model exec hm sessionId now fuel history' store'
      ⟨out.response, out.nativeHistory, out.store, out.rounds + 1⟩

namespace ChatService

/-- Source `ChatService.runLLMLoop` with its `depth` parameter. -/
def runLLMLoop {α ρ : Type} (model : List α → LLMResponse ρ)
    (exec : ToolCall → ToolExecutionResult) (hm : IChatHistoryManager α ρ)
    (sessionId : String) (now : Nat) (history : List α) (store : SessionStore α)
    (depth : Nat) : ChatLoopResult α ρ :=
  chatLoopAux model exec hm sessionId now (CHAT_MAX_DEPTH - depth) history store

end ChatService

/-- Observable outcome of one run of `OrchestratorService.runLLMLoopNative`:
the returned response, the final native history, and the number of model
invocations made. -/
structure OrchLoopResult (α ρ : Type) where
  response : LLMResponse ρ
  nativeHistory : List α
  rounds : Nat

/-- Source `OrchestratorService.runLLMLoopNative`, fuel-indexed
(`fuel = MAX_DEPTH - depth`).  Unlike the chat loop it neither persists nor
appends the final assistant text; it simply returns the text response. -/
def orchLoopAux {α ρ : Type} (model : List α → LLMResponse ρ)
    (exec : ToolCall → ToolExecutionResult) (hm : IChatHistoryManager α ρ) :
    Nat → List α → OrchLoopResult α ρ
  | 0, history => ⟨cannedOrchResponse ρ, history, 0⟩
  | fuel + 1, history =>
    let response := model history
    match response.toolCalls with
    | [] => ⟨response, history, 1⟩
    | _ :: _ =>
      let history' := roundStep hm exec history response
      let out := orchLoopAux model exec hm fuel history'
      ⟨out.response, out.nativeHistory, out.rounds + 1⟩

namespace OrchestratorService

/-- Source `OrchestratorService.runLLMLoopNative` with its `depth` parameter. -/
def runLLMLoopNative {α ρ : Type} (model : List α → LLMResponse ρ)
    (exec : ToolCall → ToolExecutionResult) (hm : IChatHistoryManager α ρ)
    (history : List α) (depth : Nat) : OrchLoopResult α ρ :=
  orchLoopAux model exec hm (ORCH_MAX_DEPTH - depth) history

end OrchestratorService

/-! ## Result-key projections and concrete inputs used by the theorems -/

/-- The tool-result keys carried by a Gemini entry: the `functionResponse`
names of its parts (the Gemini transcript keys results by tool name, which is
also the vendor-assigned call id). -/
def gResultKeys (e : GEntry) : List String :=
  e.parts.filterMap (fun p =>
    match p with
    | GPart.functionResponse n _ => some n
    | _ => none)

/-- The tool-result key of an OpenAI entry: its `tool_call_id` when it is a
`tool` turn. -/
def oResultKey (e : OEntry) : Option String :=
  match e with
  | OEntry.tool (some cid) _ => some cid
  | _ => none

/-- A handler that succeeds (for concrete witnesses). -/
def demoHandlerOk : ToolHandlerFn :=
  fun _ _ => Except.ok { success := true, message := "ok", data := none }

/-- A handler that throws (for concrete witnesses). -/
def demoHandlerThrow : ToolHandlerFn :=
  fun _ _ => Except.error "kaput"

/-- A registered echo tool definition. -/
def demoToolDef : ToolDefinition :=
  { name := "echo", description := "Echo back the input message.", schema := Json.obj [] }

/-- A registered always-throwing tool definition. -/
def demoBoomDef : ToolDefinition :=
  { name := "boom", description := "Always throws.", schema := Json.obj [] }

/-- A concrete two-tool registry. -/
def demoRegistry : ToolRegistry :=
  [("echo", { definition := demoToolDef, handler := demoHandlerOk }),
   ("boom", { definition := demoBoomDef, handler := demoHandlerThrow })]

/-- A concrete request context. -/
def demoContext : SessionContext :=
  { sessionId := "session-1", userId := none, metadata := none }

/-- A call to a name absent from `demoRegistry`. -/
def demoUnknownCall : ToolCall := { id := "x1", name := "nope", args := Json.null }

/-- A call to the always-throwing tool. -/
def demoBoomCall : ToolCall := { id := "b1", name := "boom", args := Json.null }

/-- A concrete cached session over `Nat` entries. -/
def demoSession : CachedSession Nat :=
  { sessionId := "session-1", nativeHistory := [], provider := Provider.gemini,
    createdAt := 0, lastActivityAt := 0 }

/-- A one-session store. -/
def demoStore : SessionStore Nat := [("session-1", demoSession)]

/-- A Gemini-style tool call (the vendor reuses the name as id). -/
def demoToolCall : ToolCall :=
  { id := "get_user_accounts", name := "get_user_accounts", args := Json.obj [] }

/-- A model response that requests one tool. -/
def demoToolResponse : LLMResponse GRaw :=
  { text := none, toolCalls := [demoToolCall],
    usage := { inputTokens := 1, outputTokens := 2, totalTokens := 3 },
    rawResponse := none }

/-- A model response with no tool calls. -/
def demoTextResponse : LLMResponse GRaw :=
  { text := some "done", toolCalls := [],
    usage := { inputTokens := 1, outputTokens := 2, totalTokens := 3 },
    rawResponse := none }

/-- A model that always answers with text. -/
def demoModelText : List GEntry → LLMResponse GRaw := fun _ => demoTextResponse

/-- A model that always requests a tool. -/
def demoModelTools : List GEntry → LLMResponse GRaw := fun _ => demoToolResponse

/-- A tool executor that always succeeds. -/
def demoExec : ToolCall → ToolExecutionResult :=
  fun _ => { success := true, message := "ok", data := none }

/-- An OpenAI-style tool call with a vendor-assigned id. -/
def demoOToolCall : ToolCall := { id := "call-1", name := "echo", args := Json.obj [] }

/-- An OpenAI model response requesting one tool (raw type `Unit`). -/
def demoOResponse : LLMResponse Unit :=
  { text := none, toolCalls := [demoOToolCall],
    usage := { inputTokens := 0, outputTokens := 0, totalTokens := 0 },
    rawResponse := none }

/-- A user text turn whose content is the empty string. -/
def emptyTextMsg : LLMMessage :=
  { role := Role.user, content := some "", toolCalls := [], toolResult := none }

/-- Two plain text turns with non-empty content. -/
def demoMsgs : List LLMMessage :=
  [{ role := Role.user, content := some "hi", toolCalls := [], toolResult := none },
   { role := Role.assistant, content := some "hello", toolCalls := [], toolResult := none }]

/-! ## Helper lemmas -/

theorem regLookup_nil (name : String) : regLookup [] name = none := rfl

theorem regLookup_cons (k : String) (v : RegisteredTool) (rest : ToolRegistry)
    (name : String) :
    regLookup ((k, v) :: rest) name = if k = name then some v else regLookup rest name := rfl

theorem storeLookup_nil {α : Type} (sid : String) :
    storeLookup ([] : SessionStore α) sid = none := rfl

theorem storeLookup_cons {α : Type} (k : String) (v : CachedSession α)
    (rest : SessionStore α) (sid : String) :
    storeLookup ((k, v) :: rest) sid = if k = sid then some v else storeLookup rest sid := rfl

theorem storeLookup_storeSet {α : Type} (v : CachedSession α) :
    ∀ (store : SessionStore α) (sid : String) (w : CachedSession α),
      storeLookup store sid = some w →
      storeLookup (storeSet store sid v) sid = some v := by
  intro store sid w h
  induction store with
  | nil => simp [storeLookup_nil] at h
  | cons kv rest ih =>
    obtain ⟨k, u⟩ := kv
    rw [storeLookup_cons] at h
    by_cases hk : k = sid
    · subst hk
      simp [storeSet, storeLookup_cons]
    · rw [if_neg hk] at h
      simpa [storeSet, storeLookup_cons, hk] using ih h

theorem storeLookup_storeErase {α : Type} :
    ∀ (store : SessionStore α) (sid : String),
      storeLookup (storeErase store sid) sid = none := by
  intro store sid
  induction store with
  | nil => rfl
  | cons kv rest ih =>
    obtain ⟨k, u⟩ := kv
    by_cases hk : k = sid
    · subst hk
      simpa [storeErase] using ih
    · simpa [storeErase, storeLookup_cons, hk] using ih

theorem storeLookup_append_absent {α : Type} :
    ∀ (store : SessionStore α) (sid : String) (s : CachedSession α),
      storeLookup store sid = none →
      storeLookup (store ++ [(sid, s)]) sid = some s := by
  intro store sid s h
  induction store with
  | nil => simp [storeLookup_cons]
  | cons kv rest ih =>
    obtain ⟨k, u⟩ := kv
    rw [storeLookup_cons] at h
    by_cases hk : k = sid
    · rw [if_pos hk] at h
      exact absurd h (by simp)
    · rw [if_neg hk] at h
      simpa [storeLookup_cons, hk] using ih h

theorem foldl_append_singleton {β γ : Type} (g : γ → β) :
    ∀ (l : List γ) (base : List β),
      List.foldl (fun acc x => acc ++ [g x]) base l = base ++ l.map g := by
  intro l
  induction l with
  | nil => intro base; simp
  | cons a as ih =>
    intro base
    simp only [List.foldl_cons, List.map_cons, ih]
    simp [List.append_assoc]

theorem roundStep_gemini (exec : ToolCall → ToolExecutionResult)
    (history : List GEntry) (r : LLMResponse GRaw) :
    roundStep geminiHM exec history r =
      GeminiHistoryManager.addAssistantToolCalls history r.toolCalls r.rawResponse ++
        r.toolCalls.map (fun tc => GeminiHistoryManager.toolResultEntry tc (exec tc)) :=
  foldl_append_singleton (fun tc => GeminiHistoryManager.toolResultEntry tc (exec tc))
    r.toolCalls
    (GeminiHistoryManager.addAssistantToolCalls history r.toolCalls r.rawResponse)

theorem roundStep_openai {ρ : Type} (exec : ToolCall → ToolExecutionResult)
    (history : List OEntry) (r : LLMResponse ρ) :
    roundStep (openaiHM ρ) exec history r =
      OpenAIHistoryManager.addAssistantToolCalls history r.toolCalls r.rawResponse ++
        r.toolCalls.map (fun tc => OpenAIHistoryManager.toolResultEntry tc (exec tc)) :=
  foldl_append_singleton (fun tc => OpenAIHistoryManager.toolResultEntry tc (exec tc))
    r.toolCalls
    (OpenAIHistoryManager.addAssistantToolCalls history r.toolCalls r.rawResponse)

theorem gResultKeys_map (exec : ToolCall → ToolExecutionResult) :
    ∀ (l : List ToolCall),
      (l.map (fun tc => GeminiHistoryManager.toolResultEntry tc (exec tc))).flatMap
          gResultKeys =
        l.map ToolCall.name := by
  intro l
  induction l with
  | nil => rfl
  | cons a as ih =>
    simp only [List.map_cons, List.flatMap_cons, ih]
    rfl

theorem oResultKey_map (exec : ToolCall → ToolExecutionResult) :
    ∀ (l : List ToolCall),
      (l.map (fun tc => OpenAIHistoryManager.toolResultEntry tc (exec tc))).filterMap
          oResultKey =
        l.map ToolCall.id := by
  intro l
  induction l with
  | nil => rfl
  | cons a as ih =>
    simp only [List.map_cons, List.filterMap_cons]
    rw [ih]
    rfl

theorem chatLoopAux_step_tools {α ρ : Type} (model : List α → LLMResponse ρ)
    (exec : ToolCall → ToolExecutionResult) (hm : IChatHistoryManager α ρ)
    (sid : String) (now : Nat) (fuel : Nat) (history : List α)
    (store : SessionStore α) (h : (model history).toolCalls ≠ []) :
    chatLoopAux model exec hm sid now (fuel + 1) history store =
      ⟨(chatLoopAux model exec hm sid now fuel
          (roundStep hm exec history (model history))
          (SessionCacheService.updateHistory store sid
            (roundStep hm exec history (model history)) now)).response,
       (chatLoopAux model exec hm sid now fuel
          (roundStep hm exec history (model history))
          (SessionCacheService.updateHistory store sid
            (roundStep hm exec history (model history)) now)).nativeHistory,
       (chatLoopAux model exec hm sid now fuel
          (roundStep hm exec history (model history))
          (SessionCacheService.updateHistory store sid
            (roundStep hm exec history (model history)) now)).store,
       (chatLoopAux model exec hm sid now fuel
          (roundStep hm exec history (model history))
          (SessionCacheService.updateHistory store sid
            (roundStep hm exec history (model history)) now)).rounds + 1⟩ := by
  cases hr : (model history).toolCalls with
  | nil => exact absurd hr h
  | cons a as => simp [chatLoopAux, hr]

theorem orchLoopAux_step_tools {α ρ : Type} (model : List α → LLMResponse ρ)
    (exec : ToolCall → ToolExecutionResult) (hm : IChatHistoryManager α ρ)
    (fuel : Nat) (history : List α) (h : (model history).toolCalls ≠ []) :
    orchLoopAux model exec hm (fuel + 1) history =
      ⟨(orchLoopAux model exec hm fuel
          (roundStep hm exec history (model history))).response,
       (orchLoopAux model exec hm fuel
          (roundStep hm exec history (model history))).nativeHistory,
       (orchLoopAux model exec hm fuel
          (roundStep hm exec history (model history))).rounds + 1⟩ := by
  cases hr : (model history).toolCalls with
  | nil => exact absurd hr h
  | cons a as => simp [orchLoopAux, hr]

theorem chatLoopAux_returns_at {α ρ : Type} (model : List α → LLMResponse ρ)
    (exec : ToolCall → ToolExecutionResult) (hm : IChatHistoryManager α ρ)
    (sid : String) (now : Nat) :
    ∀ (N fuel : Nat) (h0 : List α) (store : SessionStore α),
      N < fuel →
      (∀ k, k < N → (model (histAt model exec hm h0 k)).toolCalls ≠ []) →
      (model (histAt model exec hm h0 N)).toolCalls = [] →
      (chatLoopAux model exec hm sid now fuel h0 store).response =
        model (histAt model exec hm h0 N) ∧
      (chatLoopAux model exec hm sid now fuel h0 store).rounds = N + 1 := by
  intro N
  induction N with
  | zero =>
    intro fuel h0 store hlt _ hstop
    obtain ⟨f, rfl⟩ : ∃ f, fuel = f + 1 := ⟨fuel - 1, by omega⟩
    rw [histAt] at hstop ⊢
    refine ⟨?_, ?_⟩ <;> simp [chatLoopAux, hstop]
  | succ N ih =>
    intro fuel h0 store hlt hk hstop
    obtain ⟨f, rfl⟩ : ∃ f, fuel = f + 1 := ⟨fuel - 1, by omega⟩
    have h0call : (model h0).toolCalls ≠ [] := by
      have := hk 0 (Nat.succ_pos N)
      rw [histAt] at this
      exact this
    have hk' : ∀ k, k < N →
        (model (histAt model exec hm (roundStep hm exec h0 (model h0)) k)).toolCalls ≠ [] := by
      intro k hkN
      have := hk (k + 1) (by omega)
      rw [histAt] at this
      exact this
    have hstop' :
        (model (histAt model exec hm (roundStep hm exec h0 (model h0)) N)).toolCalls = [] := by
      rw [histAt] at hstop
      exact hstop
    have ihapp := ih f (roundStep hm exec h0 (model h0))
      (SessionCacheService.updateHistory store sid (roundStep hm exec h0 (model h0)) now)
      (by omega) hk' hstop'
    rw [chatLoopAux_step_tools model exec hm sid now f h0 store h0call]
    rw [show histAt model exec hm h0 (N + 1) =
          histAt model exec hm (roundStep hm exec h0 (model h0)) N from rfl]
    exact ⟨ihapp.1, by simp [ihapp.2]⟩

theorem chatLoopAux_always_tools {α ρ : Type} (model : List α → LLMResponse ρ)
    (exec : ToolCall → ToolExecutionResult) (hm : IChatHistoryManager α ρ)
    (sid : String) (now : Nat) :
    ∀ (fuel : Nat) (h0 : List α) (store : SessionStore α),
      (∀ k, (model (histAt model exec hm h0 k)).toolCalls ≠ []) →
      (chatLoopAux model exec hm sid now fuel h0 store).response = cannedChatResponse ρ ∧
      (chatLoopAux model exec hm sid now fuel h0 store).rounds = fuel := by
  intro fuel
  induction fuel with
  | zero => intro h0 store _; exact ⟨rfl, rfl⟩
  | succ f ih =>
    intro h0 store hall
    have h0call : (model h0).toolCalls ≠ [] := by
      have := hall 0
      rw [histAt] at this
      exact this
    have hall' : ∀ k,
        (model (histAt model exec hm (roundStep hm exec h0 (model h0)) k)).toolCalls ≠ [] := by
      intro k
      have := hall (k + 1)
      rw [histAt] at this
      exact this
    have ihapp := ih (roundStep hm exec h0 (model h0))
      (SessionCacheService.updateHistory store sid (roundStep hm exec h0 (model h0)) now) hall'
    rw [chatLoopAux_step_tools model exec hm sid now f h0 store h0call]
    exact ⟨ihapp.1, by simp [ihapp.2]⟩

theorem orchLoopAux_returns_at {α ρ : Type} (model : List α → LLMResponse ρ)
    (exec : ToolCall → ToolExecutionResult) (hm : IChatHistoryManager α ρ) :
    ∀ (N fuel : Nat) (h0 : List α),
      N < fuel →
      (∀ k, k < N → (model (histAt model exec hm h0 k)).toolCalls ≠ []) →
      (model (histAt model exec hm h0 N)).toolCalls = [] →
      (orchLoopAux model exec hm fuel h0).response = model (histAt model exec hm h0 N) ∧
      (orchLoopAux model exec hm fuel h0).rounds = N + 1 := by
  intro N
  induction N with
  | zero =>
    intro fuel h0 hlt _ hstop
    obtain ⟨f, rfl⟩ : ∃ f, fuel = f + 1 := ⟨fuel - 1, by omega⟩
    rw [histAt] at hstop ⊢
    refine ⟨?_, ?_⟩ <;> simp [orchLoopAux, hstop]
  | succ N ih =>
    intro fuel h0 hlt hk hstop
    obtain ⟨f, rfl⟩ : ∃ f, fuel = f + 1 := ⟨fuel - 1, by omega⟩
    have h0call : (model h0).toolCalls ≠ [] := by
      have := hk 0 (Nat.succ_pos N)
      rw [histAt] at this
      exact this
    have hk' : ∀ k, k < N →
        (model (histAt model exec hm (roundStep hm exec h0 (model h0)) k)).toolCalls ≠ [] := by
      intro k hkN
      have := hk (k + 1) (by omega)
      rw [histAt] at this
      exact this
    have hstop' :
        (model (histAt model exec hm (roundStep hm exec h0 (model h0)) N)).toolCalls = [] := by
      rw [histAt] at hstop
      exact hstop
    have ihapp := ih f (roundStep hm exec h0 (model h0)) (by omega) hk' hstop'
    rw [orchLoopAux_step_tools model exec hm f h0 h0call]
    rw [show histAt model exec hm h0 (N + 1) =
          histAt model exec hm (roundStep hm exec h0 (model h0)) N from rfl]
    exact ⟨ihapp.1, by simp [ihapp.2]⟩

theorem orchLoopAux_always_tools {α ρ : Type} (model : List α → LLMResponse ρ)
    (exec : ToolCall → ToolExecutionResult) (hm : IChatHistoryManager α ρ) :
    ∀ (fuel : Nat) (h0 : List α),
      (∀ k, (model (histAt model exec hm h0 k)).toolCalls ≠ []) →
      (orchLoopAux model exec hm fuel h0).response = cannedOrchResponse ρ ∧
      (orchLoopAux model exec hm fuel h0).rounds = fuel := by
  intro fuel
  induction fuel with
  | zero => intro h0 _; exact ⟨rfl, rfl⟩
  | succ f ih =>
    intro h0 hall
    have h0call : (model h0).toolCalls ≠ [] := by
      have := hall 0
      rw [histAt] at this
      exact this
    have hall' : ∀ k,
        (model (histAt model exec hm (roundStep hm exec h0 (model h0)) k)).toolCalls ≠ [] := by
      intro k
      have := hall (k + 1)
      rw [histAt] at this
      exact this
    have ihapp := ih (roundStep hm exec h0 (model h0)) hall'
    rw [orchLoopAux_step_tools model exec hm f h0 h0call]
    exact ⟨ihapp.1, by simp [ihapp.2]⟩

theorem chatLoopAux_store_independent {α ρ : Type} (model : List α → LLMResponse ρ)
    (exec : ToolCall → ToolExecutionResult) (hm : IChatHistoryManager α ρ)
    (sid : String) (now : Nat) :
    ∀ (fuel : Nat) (h0 : List α) (st₁ st₂ : SessionStore α),
      (chatLoopAux model exec hm sid now fuel h0 st₁).response =
        (chatLoopAux model exec hm sid now fuel h0 st₂).response ∧
      (chatLoopAux model exec hm sid now fuel h0 st₁).nativeHistory =
        (chatLoopAux model exec hm sid now fuel h0 st₂).nativeHistory ∧
      (chatLoopAux model exec hm sid now fuel h0 st₁).rounds =
        (chatLoopAux model exec hm sid now fuel h0 st₂).rounds := by
  intro fuel
  induction fuel with
  | zero => intro h0 st₁ st₂; exact ⟨rfl, rfl, rfl⟩
  | succ f ih =>
    intro h0 st₁ st₂
    cases hr : (model h0).toolCalls with
    | nil => refine ⟨?_, ?_, ?_⟩ <;> simp [chatLoopAux, hr]
    | cons a as =>
      have hne : (model h0).toolCalls ≠ [] := by rw [hr]; exact List.cons_ne_nil a as
      have ihapp := ih (roundStep hm exec h0 (model h0))
        (SessionCacheService.updateHistory st₁ sid (roundStep hm exec h0 (model h0)) now)
        (SessionCacheService.updateHistory st₂ sid (roundStep hm exec h0 (model h0)) now)
      rw [chatLoopAux_step_tools model exec hm sid now f h0 st₁ hne,
          chatLoopAux_step_tools model exec hm sid now f h0 st₂ hne]
      exact ⟨ihapp.1, ihapp.2.1, by simp [ihapp.2.2]⟩

/-! ## Claims -/

/-- C5: `executeTool` never throws: it always produces a result (never an
uncaught exception); an unregistered name yields a failure result whose
message enumerates the registered tool names (`unknownToolResult`); a
handler-level fault is caught and converted into a failure result carrying
the fault message prefixed with "Tool execution failed: ". -/
theorem executeTool_never_throws (registry : ToolRegistry) (call : ToolCall)
    (context : SessionContext) :
    (∃ r, ToolHandlerService.executeTool registry call context = Except.ok r) ∧
    (regLookup registry call.name = none →
      ToolHandlerService.executeTool registry call context =
        Except.ok (ToolHandlerService.unknownToolResult registry call)) ∧
    (∀ (registered : RegisteredTool) (msg : String),
      regLookup registry call.name = some registered →
      registered.handler call context = Except.error msg →
      ToolHandlerService.executeTool registry call context =
        Except.ok { success := false, message := "Tool execution failed: " ++ msg,
                    data := none }) := by
  refine ⟨?_, ?_, ?_⟩
  · cases hl : regLookup registry call.name with
    | none =>
      exact ⟨ToolHandlerService.unknownToolResult registry call,
        by simp [ToolHandlerService.executeTool, hl]⟩
    | some registered =>
      cases hh : registered.handler call context with
      | ok r => exact ⟨r, by simp [ToolHandlerService.executeTool, hl, hh]⟩
      | error m =>
        exact ⟨{ success := false, message := "Tool execution failed: " ++ m, data := none },
          by simp [ToolHandlerService.executeTool, hl, hh]⟩
  · intro hl
    simp [ToolHandlerService.executeTool, hl]
  · intro registered msg hl hh
    simp [ToolHandlerService.executeTool, hl, hh]

/-- C5 witness: an unknown call yields the enumerating failure; a throwing
handler ("boom") yields a caught failure carrying the fault message. -/
theorem executeTool_never_throws_witness :
    regLookup demoRegistry demoUnknownCall.name = none ∧
    ToolHandlerService.executeTool demoRegistry demoUnknownCall demoContext =
      Except.ok (ToolHandlerService.unknownToolResult demoRegistry demoUnknownCall) ∧
    regLookup demoRegistry demoBoomCall.name =
      some { definition := demoBoomDef, handler := demoHandlerThrow } ∧
    ToolHandlerService.executeTool demoRegistry demoBoomCall demoContext =
      Except.ok { success := false, message := "Tool execution failed: kaput",
                  data := none } := by
  refine ⟨rfl, ?_, rfl, ?_⟩
  · exact (executeTool_never_throws demoRegistry demoUnknownCall demoContext).2.1 rfl
  · exact (executeTool_never_throws demoRegistry demoBoomCall demoContext).2.2
      { definition := demoBoomDef, handler := demoHandlerThrow } "kaput" rfl rfl

/-- C7: `registerTool` with an already-registered name leaves the registry
completely unchanged (first registration wins) and returns without error. -/
theorem registerTool_idempotent (registry : ToolRegistry) (definition : ToolDefinition)
    (handler : ToolHandlerFn)
    (h : (regLookup registry definition.name).isSome = true) :
    ToolHandlerService.registerTool registry definition handler = registry := by
  simp [ToolHandlerService.registerTool, h]

/-- C7 witness: re-registering "echo" with a different definition and handler
leaves the two-tool registry unchanged. -/
theorem registerTool_idempotent_witness :
    (regLookup demoRegistry "echo").isSome = true ∧
    ToolHandlerService.registerTool demoRegistry
        { name := "echo", description := "second registration", schema := Json.null }
        demoHandlerThrow =
      demoRegistry :=
  ⟨rfl, registerTool_idempotent demoRegistry
    { name := "echo", description := "second registration", schema := Json.null }
    demoHandlerThrow rfl⟩

/-- C8: every history-adapter append operation of both managers is a pure
function of its history argument returning the input followed by the appended
turn(s): `op history x = history ++ op [] x` (the appended suffix does not
depend on the input, and the input is a preserved prefix).  In the Lean
embedding the operations are total functions, mirroring the source, which
builds a fresh array by spreading instead of mutating. -/
theorem history_ops_pure_append :
    (∀ (h : List GEntry) (c : String),
      GeminiHistoryManager.addUserMessage h c = h ++ GeminiHistoryManager.addUserMessage [] c) ∧
    (∀ (h : List GEntry) (c : String),
      GeminiHistoryManager.addAssistantMessage h c =
        h ++ GeminiHistoryManager.addAssistantMessage [] c) ∧
    (∀ (h : List GEntry) (tcs : List ToolCall) (raw : Option GRaw),
      GeminiHistoryManager.addAssistantToolCalls h tcs raw =
        h ++ GeminiHistoryManager.addAssistantToolCalls [] tcs raw) ∧
    (∀ (h : List GEntry) (tc : ToolCall) (res : ToolExecutionResult),
      GeminiHistoryManager.addToolResults h tc res =
        h ++ GeminiHistoryManager.addToolResults [] tc res) ∧
    (∀ (h : List OEntry) (c : String),
      OpenAIHistoryManager.addUserMessage h c = h ++ OpenAIHistoryManager.addUserMessage [] c) ∧
    (∀ (h : List OEntry) (c : String),
      OpenAIHistoryManager.addAssistantMessage h c =
        h ++ OpenAIHistoryManager.addAssistantMessage [] c) ∧
    (∀ (ρ : Type) (h : List OEntry) (tcs : List ToolCall) (raw : Option ρ),
      OpenAIHistoryManager.addAssistantToolCalls h tcs raw =
        h ++ OpenAIHistoryManager.addAssistantToolCalls [] tcs raw) ∧
    (∀ (h : List OEntry) (tc : ToolCall) (res : ToolExecutionResult),
      OpenAIHistoryManager.addToolResults h tc res =
        h ++ OpenAIHistoryManager.addToolResults [] tc res) := by
  refine ⟨fun h c => rfl, fun h c => rfl, ?_, fun h tc res => rfl, fun h c => rfl,
    fun h c => rfl, fun ρ h tcs raw => rfl, fun h tc res => rfl⟩
  intro h tcs raw
  cases raw with
  | none => rfl
  | some r =>
    cases hc : r.candidates.head? with
    | none => simp [GeminiHistoryManager.addAssistantToolCalls, hc]
    | some cand =>
      cases hcc : cand.content with
      | none => simp [GeminiHistoryManager.addAssistantToolCalls, hc, hcc]
      | some c => simp [GeminiHistoryManager.addAssistantToolCalls, hc, hcc]

/-- C9: for a session present in the store, `updateHistory` with a list longer
than `MAX_HISTORY_LENGTH` (100) stores exactly the most recent
maximum-length suffix (`slice(-MAX_HISTORY_LENGTH)`, i.e. a suffix of the
given list of length exactly the cap); a list not exceeding the cap is stored
unchanged. -/
theorem updateHistory_caps_history {α : Type} (store : SessionStore α)
    (sessionId : String) (s : CachedSession α) (hist : List α) (now : Nat)
    (hs : storeLookup store sessionId = some s) :
    (hist.length > MAX_HISTORY_LENGTH →
      storeLookup (SessionCacheService.updateHistory store sessionId hist now) sessionId =
        some { s with nativeHistory := hist.drop (hist.length - MAX_HISTORY_LENGTH),
                      lastActivityAt := now } ∧
      (hist.drop (hist.length - MAX_HISTORY_LENGTH)).length = MAX_HISTORY_LENGTH ∧
      hist.drop (hist.length - MAX_HISTORY_LENGTH) <:+ hist) ∧
    (hist.length ≤ MAX_HISTORY_LENGTH →
      storeLookup (SessionCacheService.updateHistory store sessionId hist now) sessionId =
        some { s with nativeHistory := hist, lastActivityAt := now }) := by
  constructor
  · intro hlong
    refine ⟨?_, ?_, List.drop_suffix _ _⟩
    · have heq : SessionCacheService.updateHistory store sessionId hist now =
          storeSet store sessionId
            { s with nativeHistory := hist.drop (hist.length - MAX_HISTORY_LENGTH),
                     lastActivityAt := now } := by
        simp [SessionCacheService.updateHistory, hs, hlong]
      rw [heq]
      exact storeLookup_storeSet _ store sessionId s hs
    · rw [List.length_drop]
      omega
  · intro hshort
    have hnot : ¬ hist.length > MAX_HISTORY_LENGTH := by omega
    have heq : SessionCacheService.updateHistory store sessionId hist now =
        storeSet store sessionId { s with nativeHistory := hist, lastActivityAt := now } := by
      simp [SessionCacheService.updateHistory, hs, hnot]
    rw [heq]
    exact storeLookup_storeSet _ store sessionId s hs

/-- C9 witness: a 101-entry history stored into a present session is truncated
to its 100 most recent entries. -/
theorem updateHistory_caps_history_witness :
    storeLookup demoStore "session-1" = some demoSession ∧
    (List.range 101).length > MAX_HISTORY_LENGTH ∧
    storeLookup (SessionCacheService.updateHistory demoStore "session-1" (List.range 101) 5)
        "session-1" =
      some { demoSession with
             nativeHistory :=
               (List.range 101).drop ((List.range 101).length - MAX_HISTORY_LENGTH),
             lastActivityAt := 5 } := by
  refine ⟨rfl, by decide, ?_⟩
  exact ((updateHistory_caps_history demoStore "session-1" demoSession (List.range 101) 5
    rfl).1 (by decide)).1

theorem getSession_fresh_fst {α : Type} (store : SessionStore α) (sid : String)
    (s : CachedSession α) (now : Nat) (hs : storeLookup store sid = some s)
    (hfresh : now - s.lastActivityAt ≤ TTL_MS) :
    (SessionCacheService.getSession store sid now).1 =
      some { s with lastActivityAt := now } := by
  have hnot : ¬ now - s.lastActivityAt > TTL_MS := by omega
  simp [SessionCacheService.getSession, hs, hnot]

/-- C10: a successful `getSession` on a session whose age is within the TTL
sets `lastActivityAt` to the current time, both in the returned session and in
the store, so a subsequent read within the TTL of the new timestamp succeeds
again (reads keep the session alive indefinitely); on a session whose age
strictly exceeds the TTL, `getSession` deletes it from the store as a side
effect and returns none. -/
theorem getSession_ttl_refresh {α : Type} (store : SessionStore α) (sessionId : String)
    (s : CachedSession α) (now : Nat)
    (hs : storeLookup store sessionId = some s) :
    (now - s.lastActivityAt ≤ TTL_MS →
      (SessionCacheService.getSession store sessionId now).1 =
        some { s with lastActivityAt := now } ∧
      storeLookup (SessionCacheService.getSession store sessionId now).2 sessionId =
        some { s with lastActivityAt := now } ∧
      (∀ later : Nat, later - now ≤ TTL_MS →
        (SessionCacheService.getSession
            (SessionCacheService.getSession store sessionId now).2 sessionId later).1 =
          some { s with lastActivityAt := later })) ∧
    (now - s.lastActivityAt > TTL_MS →
      (SessionCacheService.getSession store sessionId now).1 = none ∧
      storeLookup (SessionCacheService.getSession store sessionId now).2 sessionId = none) := by
  constructor
  · intro hfresh
    have hnot : ¬ now - s.lastActivityAt > TTL_MS := by omega
    have h2 : SessionCacheService.getSession store sessionId now =
        (some { s with lastActivityAt := now },
         storeSet store sessionId { s with lastActivityAt := now }) := by
      simp [SessionCacheService.getSession, hs, hnot]
    have hlook : storeLookup (SessionCacheService.getSession store sessionId now).2 sessionId =
        some { s with lastActivityAt := now } := by
      rw [h2]
      exact storeLookup_storeSet _ store sessionId s hs
    refine ⟨by rw [h2], hlook, ?_⟩
    intro later hlater
    have hchain := getSession_fresh_fst (SessionCacheService.getSession store sessionId now).2
      sessionId { s with lastActivityAt := now } later hlook (by simp; omega)
    exact hchain
  · intro hexp
    have h2 : SessionCacheService.getSession store sessionId now =
        (none, (SessionCacheService.deleteSession store sessionId).2) := by
      simp [SessionCacheService.getSession, hs, hexp]
    refine ⟨by rw [h2], ?_⟩
    rw [h2]
    exact storeLookup_storeErase store sessionId

/-- C10 witness: a read at time 5 (well within the 9,000,000 ms TTL) refreshes
`lastActivityAt`; a read at time 9,000,001 on the untouched session deletes it
and returns none. -/
theorem getSession_ttl_refresh_witness :
    storeLookup demoStore "session-1" = some demoSession ∧
    5 - demoSession.lastActivityAt ≤ TTL_MS ∧
    (SessionCacheService.getSession demoStore "session-1" 5).1 =
      some { demoSession with lastActivityAt := 5 } ∧
    9000001 - demoSession.lastActivityAt > TTL_MS ∧
    (SessionCacheService.getSession demoStore "session-1" 9000001).1 = none ∧
    storeLookup (SessionCacheService.getSession demoStore "session-1" 9000001).2
      "session-1" = none := by
  refine ⟨rfl, by decide, ?_, by decide, ?_, ?_⟩
  · exact ((getSession_ttl_refresh demoStore "session-1" demoSession 5 rfl).1 (by decide)).1
  · exact ((getSession_ttl_refresh demoStore "session-1" demoSession 9000001 rfl).2
      (by decide)).1
  · exact ((getSession_ttl_refresh demoStore "session-1" demoSession 9000001 rfl).2
      (by decide)).2

/-- C6 counterexample: with the session evicted (absent from the store),
`updateHistory` does NOT recreate it — the store stays empty and the session
id is still absent afterwards, contradicting the claim that the next persist
recreates the session holding the given history. -/
theorem update_history_no_recreate_counterexample :
    SessionCacheService.updateHistory ([] : SessionStore Nat) "session-1" [0] 0 = [] ∧
    storeLookup (SessionCacheService.updateHistory ([] : SessionStore Nat) "session-1" [0] 0)
      "session-1" = none :=
  ⟨rfl, rfl⟩

/-- C6 (amended): when the session id is absent (evicted), the loop continues
unaffected — the response and final history of `chatLoopAux` do not depend on
the store at all — but `updateHistory` is a silent no-op that leaves the store
unchanged (the session is NOT recreated by a persist); the session reappears
only through the next `getOrCreateSession`, which creates it with an empty
history. -/
theorem evicted_session_persistence {α : Type} (store : SessionStore α)
    (sessionId : String) (hist : List α) (now : Nat)
    (habs : storeLookup store sessionId = none) :
    SessionCacheService.updateHistory store sessionId hist now = store ∧
    storeLookup (SessionCacheService.updateHistory store sessionId hist now) sessionId =
      none ∧
    (∀ (provider : Provider) (cnow : Nat),
      storeLookup (SessionCacheService.getOrCreateSession store sessionId provider cnow).2
          sessionId =
        some { sessionId := sessionId, nativeHistory := [], provider := provider,
               createdAt := cnow, lastActivityAt := cnow }) ∧
    (∀ (ρ : Type) (model : List α → LLMResponse ρ) (exec : ToolCall → ToolExecutionResult)
       (hm : IChatHistoryManager α ρ) (fuel : Nat) (h0 : List α) (store₂ : SessionStore α),
      (chatLoopAux model exec hm sessionId now fuel h0 store).response =
        (chatLoopAux model exec hm sessionId now fuel h0 store₂).response ∧
      (chatLoopAux model exec hm sessionId now fuel h0 store).nativeHistory =
        (chatLoopAux model exec hm sessionId now fuel h0 store₂).nativeHistory) := by
  have hupd : SessionCacheService.updateHistory store sessionId hist now = store := by
    simp [SessionCacheService.updateHistory, habs]
  refine ⟨hupd, by rw [hupd]; exact habs, ?_, ?_⟩
  · intro provider cnow
    have hoc : (SessionCacheService.getOrCreateSession store sessionId provider cnow).2 =
        store ++ [(sessionId,
          { sessionId := sessionId, nativeHistory := [], provider := provider,
            createdAt := cnow, lastActivityAt := cnow })] := by
      simp [SessionCacheService.getOrCreateSession, habs]
    rw [hoc]
    exact storeLookup_append_absent store sessionId _ habs
  · intro ρ model exec hm fuel h0 store₂
    exact ⟨(chatLoopAux_store_independent model exec hm sessionId now fuel h0 store store₂).1,
      (chatLoopAux_store_independent model exec hm sessionId now fuel h0 store store₂).2.1⟩

/-- C6 witness: on the empty store, persisting is a no-op and the next
`getOrCreateSession` recreates the session with empty history. -/
theorem evicted_session_persistence_witness :
    storeLookup ([] : SessionStore Nat) "session-1" = none ∧
    SessionCacheService.updateHistory ([] : SessionStore Nat) "session-1" [7] 3 = [] ∧
    storeLookup (SessionCacheService.getOrCreateSession ([] : SessionStore Nat) "session-1"
        Provider.gemini 4).2 "session-1" =
      some { sessionId := "session-1", nativeHistory := [], provider := Provider.gemini,
             createdAt := 4, lastActivityAt := 4 } := by
  refine ⟨rfl, ?_, ?_⟩
  · exact (evicted_session_persistence ([] : SessionStore Nat) "session-1" [7] 3 rfl).1
  · exact (evicted_session_persistence ([] : SessionStore Nat) "session-1" [7] 3 rfl).2.2.1
      Provider.gemini 4

theorem gemini_roundtrip_text_entry (role : Role) (s : String) (hs : s ≠ "")
    (hrole : role ≠ Role.tool) :
    GeminiHistoryManager.toAgnosticEntry (GeminiHistoryManager.toProviderEntry
      { role := role, content := some s, toolCalls := [], toolResult := none }) =
      [{ role := role, content := some s, toolCalls := [], toolResult := none }] := by
  cases role with
  | user =>
    simp [GeminiHistoryManager.toProviderEntry, GeminiHistoryManager.toAgnosticEntry,
      GeminiHistoryManager.functionCallPart?, GeminiHistoryManager.functionResponsePart?,
      GeminiHistoryManager.textPart?, hs, String.join]
  | assistant =>
    simp [GeminiHistoryManager.toProviderEntry, GeminiHistoryManager.toAgnosticEntry,
      GeminiHistoryManager.functionCallPart?, GeminiHistoryManager.functionResponsePart?,
      GeminiHistoryManager.textPart?, hs, String.join]
  | tool => exact absurd rfl hrole

theorem openai_roundtrip_text_entry (role : Role) (s : String) (hrole : role ≠ Role.tool) :
    OpenAIHistoryManager.toAgnosticEntry (OpenAIHistoryManager.toProviderEntry
      { role := role, content := some s, toolCalls := [], toolResult := none }) =
      { role := role, content := some s, toolCalls := [], toolResult := none } := by
  cases role with
  | user => rfl
  | assistant => rfl
  | tool => exact absurd rfl hrole

/-- C3 counterexample: a user text turn whose content is the empty string does
NOT round-trip through the Gemini manager — `toAgnosticFormat` drops the
entry (its only text part is falsy), so the round trip returns the empty
list instead of the original one-message list. -/
theorem roundtrip_identity_counterexample :
    GeminiHistoryManager.toAgnosticFormat
        (GeminiHistoryManager.toProviderFormat [emptyTextMsg]) = [] ∧
    ([] : List LLMMessage) ≠ [emptyTextMsg] := by
  refine ⟨rfl, ?_⟩
  intro hcontra
  exact List.noConfusion hcontra

/-- C3 (amended): `toAgnosticFormat (toProviderFormat messages)) = messages`
holds for both managers for every list of user-role and assistant-role text
turns (no tool calls, no tool results) whose content is present and
non-empty; the Gemini manager drops empty-text turns, so empty content is
excluded. -/
theorem roundtrip_identity_nonempty_text (messages : List LLMMessage)
    (h : ∀ m ∈ messages, m.role ≠ Role.tool ∧ m.toolCalls = [] ∧ m.toolResult = none ∧
          ∃ s, m.content = some s ∧ s ≠ "") :
    GeminiHistoryManager.toAgnosticFormat (GeminiHistoryManager.toProviderFormat messages) =
      messages ∧
    OpenAIHistoryManager.toAgnosticFormat (OpenAIHistoryManager.toProviderFormat messages) =
      messages := by
  induction messages with
  | nil => exact ⟨rfl, rfl⟩
  | cons m rest ih =>
    obtain ⟨hrole, htc, htr, s, hcont, hs⟩ := h m (List.mem_cons_self m rest)
    have ihapp := ih (fun m' hm' => h m' (List.mem_cons_of_mem m hm'))
    obtain ⟨r0, c0, t0, p0⟩ := m
    replace hrole : r0 ≠ Role.tool := hrole
    replace htc : t0 = [] := htc
    replace htr : p0 = none := htr
    replace hcont : c0 = some s := hcont
    subst htc
    subst htr
    subst hcont
    constructor
    · have hstep : GeminiHistoryManager.toAgnosticFormat
          (GeminiHistoryManager.toProviderFormat
            ({ role := r0, content := some s, toolCalls := [], toolResult := none } :: rest)) =
          GeminiHistoryManager.toAgnosticEntry (GeminiHistoryManager.toProviderEntry
            { role := r0, content := some s, toolCalls := [], toolResult := none }) ++
          GeminiHistoryManager.toAgnosticFormat
            (GeminiHistoryManager.toProviderFormat rest) := by
        simp [GeminiHistoryManager.toProviderFormat, GeminiHistoryManager.toAgnosticFormat]
      rw [hstep, gemini_roundtrip_text_entry r0 s hs hrole, ihapp.1]
      rfl
    · have hstep : OpenAIHistoryManager.toAgnosticFormat
          (OpenAIHistoryManager.toProviderFormat
            ({ role := r0, content := some s, toolCalls := [], toolResult := none } :: rest)) =
          OpenAIHistoryManager.toAgnosticEntry (OpenAIHistoryManager.toProviderEntry
            { role := r0, content := some s, toolCalls := [], toolResult := none }) ::
          OpenAIHistoryManager.toAgnosticFormat
            (OpenAIHistoryManager.toProviderFormat rest) := by
        simp [OpenAIHistoryManager.toProviderFormat, OpenAIHistoryManager.toAgnosticFormat]
      rw [hstep, openai_roundtrip_text_entry r0 s hrole, ihapp.2]

/-- C3 witness: a two-turn user/assistant conversation with non-empty text
round-trips through both managers. -/
theorem roundtrip_identity_nonempty_text_witness :
    (∀ m ∈ demoMsgs, m.role ≠ Role.tool ∧ m.toolCalls = [] ∧ m.toolResult = none ∧
       ∃ s, m.content = some s ∧ s ≠ "") ∧
    GeminiHistoryManager.toAgnosticFormat (GeminiHistoryManager.toProviderFormat demoMsgs) =
      demoMsgs ∧
    OpenAIHistoryManager.toAgnosticFormat (OpenAIHistoryManager.toProviderFormat demoMsgs) =
      demoMsgs := by
  have hhyp : ∀ m ∈ demoMsgs, m.role ≠ Role.tool ∧ m.toolCalls = [] ∧ m.toolResult = none ∧
      ∃ s, m.content = some s ∧ s ≠ "" := by
    intro m hm
    simp only [demoMsgs, List.mem_cons, List.not_mem_nil, or_false] at hm
    rcases hm with rfl | rfl
    · exact ⟨by decide, rfl, rfl, "hi", rfl, by decide⟩
    · exact ⟨by decide, rfl, rfl, "hello", rfl, by decide⟩
  exact ⟨hhyp, (roundtrip_identity_nonempty_text demoMsgs hhyp).1,
    (roundtrip_identity_nonempty_text demoMsgs hhyp).2⟩

/-- C4 counterexample: the OpenAI adapter does NOT replay a supplied raw
vendor turn verbatim — with a rawResponse supplied (here carrying the vendor
turn itself), the appended turn is the reconstruction from the normalized
tool calls, and differs from the vendor turn. -/
theorem openai_raw_replay_counterexample :
    OpenAIHistoryManager.addAssistantToolCalls (ρ := OEntry) []
        [{ id := "call-1", name := "echo", args := Json.obj [] }]
        (some (OEntry.assistant (some "vendor turn") [])) =
      [OEntry.assistant none [{ id := "call-1", name := "echo", args := Json.obj [] }]] ∧
    OEntry.assistant none [{ id := "call-1", name := "echo", args := Json.obj [] }] ≠
      OEntry.assistant (some "vendor turn") [] := by
  refine ⟨rfl, ?_⟩
  intro hcontra
  injection hcontra with h1 h2
  exact Option.noConfusion h1

/-- C4 (amended): the Gemini adapter replays the vendor turn
(`rawResponse.candidates[0].content`) verbatim whenever it is present, and
reconstructs from the normalized tool-call list only when no usable raw
response is supplied; the OpenAI adapter ALWAYS reconstructs the assistant
turn from the normalized list, ignoring any supplied rawResponse. -/
theorem assistant_tool_calls_raw_preference :
    (∀ (h : List GEntry) (tcs : List ToolCall) (raw : GRaw) (cand : GCandidate)
       (c : GEntry),
      raw.candidates.head? = some cand → cand.content = some c →
      GeminiHistoryManager.addAssistantToolCalls h tcs (some raw) = h ++ [c]) ∧
    (∀ (h : List GEntry) (tcs : List ToolCall),
      GeminiHistoryManager.addAssistantToolCalls h tcs none =
        h ++ [GeminiHistoryManager.reconstructedToolCallEntry tcs]) ∧
    (∀ (h : List GEntry) (tcs : List ToolCall) (raw : GRaw),
      (∀ cand, raw.candidates.head? = some cand → cand.content = none) →
      GeminiHistoryManager.addAssistantToolCalls h tcs (some raw) =
        h ++ [GeminiHistoryManager.reconstructedToolCallEntry tcs]) ∧
    (∀ (ρ : Type) (h : List OEntry) (tcs : List ToolCall) (raw : Option ρ),
      OpenAIHistoryManager.addAssistantToolCalls h tcs raw =
        h ++ [OpenAIHistoryManager.reconstructedToolCallEntry tcs]) := by
  refine ⟨?_, fun h tcs => rfl, ?_, fun ρ h tcs raw => rfl⟩
  · intro h tcs raw cand c hhead hcontent
    simp [GeminiHistoryManager.addAssistantToolCalls, hhead, hcontent]
  · intro h tcs raw hnone
    cases hhead : raw.candidates.head? with
    | none => simp [GeminiHistoryManager.addAssistantToolCalls, hhead]
    | some cand =>
      have hcc := hnone cand hhead
      simp [GeminiHistoryManager.addAssistantToolCalls, hhead, hcc]

/-- C4 witness: a Gemini raw response with a present candidate content is
replayed verbatim; one without content falls back to reconstruction. -/
theorem assistant_tool_calls_raw_preference_witness :
    (GRaw.mk [GCandidate.mk (some (GEntry.mk "model"
        [GPart.functionCall "echo" Json.null]))]).candidates.head? =
      some (GCandidate.mk (some (GEntry.mk "model" [GPart.functionCall "echo" Json.null]))) ∧
    (GCandidate.mk (some (GEntry.mk "model" [GPart.functionCall "echo" Json.null]))).content =
      some (GEntry.mk "model" [GPart.functionCall "echo" Json.null]) ∧
    GeminiHistoryManager.addAssistantToolCalls [] [demoToolCall]
        (some (GRaw.mk [GCandidate.mk (some (GEntry.mk "model"
          [GPart.functionCall "echo" Json.null]))])) =
      [] ++ [GEntry.mk "model" [GPart.functionCall "echo" Json.null]] ∧
    (∀ cand, (GRaw.mk [GCandidate.mk none]).candidates.head? = some cand →
      cand.content = none) ∧
    GeminiHistoryManager.addAssistantToolCalls [] [demoToolCall]
        (some (GRaw.mk [GCandidate.mk none])) =
      [] ++ [GeminiHistoryManager.reconstructedToolCallEntry [demoToolCall]] := by
  have hnone : ∀ cand, (GRaw.mk [GCandidate.mk none]).candidates.head? = some cand →
      cand.content = none := by
    intro cand hc
    have : GCandidate.mk none = cand := by
      injection hc
    rw [← this]
  refine ⟨rfl, rfl, ?_, hnone, ?_⟩
  · exact assistant_tool_calls_raw_preference.1 [] [demoToolCall]
      (GRaw.mk [GCandidate.mk (some (GEntry.mk "model" [GPart.functionCall "echo" Json.null]))])
      (GCandidate.mk (some (GEntry.mk "model" [GPart.functionCall "echo" Json.null])))
      (GEntry.mk "model" [GPart.functionCall "echo" Json.null]) rfl rfl
  · exact assistant_tool_calls_raw_preference.2.2.1 [] [demoToolCall]
      (GRaw.mk [GCandidate.mk none]) hnone

/-- C1: in every round of either orchestration loop in which the model
response carries a non-empty tool-call list, the loop appends the assistant
tool-call turn first and then one result per requested call, in the exact
emission order, before the next model invocation (the recursive call runs on
`roundStep`, which is the old history, then the assistant turn, then the
mapped results); consequently — per-turn call ids being distinct, and the
Gemini vendor reusing the tool name as the call id — each emitted call id
occurs exactly once among the result keys appended for that round, for both
the Gemini transcript (keyed by `functionResponse` name) and the OpenAI
transcript (keyed by `tool_call_id`): no dangling calls when the next model
call is issued. -/
theorem chat_loop_no_dangling_tool_calls :
    (∀ (α ρ : Type) (model : List α → LLMResponse ρ) (exec : ToolCall → ToolExecutionResult)
       (hm : IChatHistoryManager α ρ) (sid : String) (now fuel : Nat) (history : List α)
       (store : SessionStore α),
      (model history).toolCalls ≠ [] →
      chatLoopAux model exec hm sid now (fuel + 1) history store =
        ⟨(chatLoopAux model exec hm sid now fuel
            (roundStep hm exec history (model history))
            (SessionCacheService.updateHistory store sid
              (roundStep hm exec history (model history)) now)).response,
         (chatLoopAux model exec hm sid now fuel
            (roundStep hm exec history (model history))
            (SessionCacheService.updateHistory store sid
              (roundStep hm exec history (model history)) now)).nativeHistory,
         (chatLoopAux model exec hm sid now fuel
            (roundStep hm exec history (model history))
            (SessionCacheService.updateHistory store sid
              (roundStep hm exec history (model history)) now)).store,
         (chatLoopAux model exec hm sid now fuel
            (roundStep hm exec history (model history))
            (SessionCacheService.updateHistory store sid
              (roundStep hm exec history (model history)) now)).rounds + 1⟩) ∧
    (∀ (α ρ : Type) (model : List α → LLMResponse ρ) (exec : ToolCall → ToolExecutionResult)
       (hm : IChatHistoryManager α ρ) (fuel : Nat) (history : List α),
      (model history).toolCalls ≠ [] →
      orchLoopAux model exec hm (fuel + 1) history =
        ⟨(orchLoopAux model exec hm fuel
            (roundStep hm exec history (model history))).response,
         (orchLoopAux model exec hm fuel
            (roundStep hm exec history (model history))).nativeHistory,
         (orchLoopAux model exec hm fuel
            (roundStep hm exec history (model history))).rounds + 1⟩) ∧
    (∀ (exec : ToolCall → ToolExecutionResult) (history : List GEntry)
       (r : LLMResponse GRaw),
      roundStep geminiHM exec history r =
        GeminiHistoryManager.addAssistantToolCalls history r.toolCalls r.rawResponse ++
          r.toolCalls.map (fun tc => GeminiHistoryManager.toolResultEntry tc (exec tc))) ∧
    (∀ (exec : ToolCall → ToolExecutionResult) (r : LLMResponse GRaw),
      (∀ tc ∈ r.toolCalls, tc.id = tc.name) →
      (r.toolCalls.map ToolCall.name).Nodup →
      ∀ tc ∈ r.toolCalls,
        ((r.toolCalls.map
            (fun tc' => GeminiHistoryManager.toolResultEntry tc' (exec tc'))).flatMap
          gResultKeys).count tc.id = 1) ∧
    (∀ (ρ : Type) (exec : ToolCall → ToolExecutionResult) (history : List OEntry)
       (r : LLMResponse ρ),
      roundStep (openaiHM ρ) exec history r =
        OpenAIHistoryManager.addAssistantToolCalls history r.toolCalls r.rawResponse ++
          r.toolCalls.map (fun tc => OpenAIHistoryManager.toolResultEntry tc (exec tc))) ∧
    (∀ (ρ : Type) (exec : ToolCall → ToolExecutionResult) (r : LLMResponse ρ),
      (r.toolCalls.map ToolCall.id).Nodup →
      ∀ tc ∈ r.toolCalls,
        ((r.toolCalls.map
            (fun tc' => OpenAIHistoryManager.toolResultEntry tc' (exec tc'))).filterMap
          oResultKey).count tc.id = 1) := by
  refine ⟨?_, ?_, ?_, ?_, ?_, ?_⟩
  · intro α ρ model exec hm sid now fuel history store hne
    exact chatLoopAux_step_tools model exec hm sid now fuel history store hne
  · intro α ρ model exec hm fuel history hne
    exact orchLoopAux_step_tools model exec hm fuel history hne
  · intro exec history r
    exact roundStep_gemini exec history r
  · intro exec r hid hnodup tc htc
    rw [gResultKeys_map exec r.toolCalls, hid tc htc]
    exact List.count_eq_one_of_mem hnodup (List.mem_map_of_mem ToolCall.name htc)
  · intro ρ exec history r
    exact roundStep_openai exec history r
  · intro ρ exec r hnodup tc htc
    rw [oResultKey_map exec r.toolCalls]
    exact List.count_eq_one_of_mem hnodup (List.mem_map_of_mem ToolCall.id htc)

/-- C1 witness: one concrete Gemini round (a single `get_user_accounts` call)
advances the chat loop exactly one step, and the emitted id occurs exactly
once among that round's Gemini result keys; likewise for a concrete OpenAI
round keyed by `call-1`. -/
theorem chat_loop_no_dangling_tool_calls_witness :
    (demoModelTools []).toolCalls ≠ [] ∧
    chatLoopAux demoModelTools demoExec geminiHM "session-1" 0 1 [] [] =
      ⟨(chatLoopAux demoModelTools demoExec geminiHM "session-1" 0 0
          (roundStep geminiHM demoExec [] (demoModelTools []))
          (SessionCacheService.updateHistory [] "session-1"
            (roundStep geminiHM demoExec [] (demoModelTools [])) 0)).response,
       (chatLoopAux demoModelTools demoExec geminiHM "session-1" 0 0
          (roundStep geminiHM demoExec [] (demoModelTools []))
          (SessionCacheService.updateHistory [] "session-1"
            (roundStep geminiHM demoExec [] (demoModelTools [])) 0)).nativeHistory,
       (chatLoopAux demoModelTools demoExec geminiHM "session-1" 0 0
          (roundStep geminiHM demoExec [] (demoModelTools []))
          (SessionCacheService.updateHistory [] "session-1"
            (roundStep geminiHM demoExec [] (demoModelTools [])) 0)).store,
       (chatLoopAux demoModelTools demoExec geminiHM "session-1" 0 0
          (roundStep geminiHM demoExec [] (demoModelTools []))
          (SessionCacheService.updateHistory [] "session-1"
            (roundStep geminiHM demoExec [] (demoModelTools [])) 0)).rounds + 1⟩ ∧
    (∀ tc ∈ demoToolResponse.toolCalls, tc.id = tc.name) ∧
    (demoToolResponse.toolCalls.map ToolCall.name).Nodup ∧
    ((demoToolResponse.toolCalls.map
        (fun tc' => GeminiHistoryManager.toolResultEntry tc' (demoExec tc'))).flatMap
      gResultKeys).count demoToolCall.id = 1 ∧
    (demoOResponse.toolCalls.map ToolCall.id).Nodup ∧
    ((demoOResponse.toolCalls.map
        (fun tc' => OpenAIHistoryManager.toolResultEntry tc' (demoExec tc'))).filterMap
      oResultKey).count demoOToolCall.id = 1 := by
  have hne : (demoModelTools []).toolCalls ≠ [] := by
    simp [demoModelTools, demoToolResponse]
  have hid : ∀ tc ∈ demoToolResponse.toolCalls, tc.id = tc.name := by
    intro tc htc
    simp only [demoToolResponse, List.mem_cons, List.not_mem_nil, or_false] at htc
    subst htc
    rfl
  have hgnodup : (demoToolResponse.toolCalls.map ToolCall.name).Nodup := by
    simp [demoToolResponse, demoToolCall]
  have honodup : (demoOResponse.toolCalls.map ToolCall.id).Nodup := by
    simp [demoOResponse, demoOToolCall]
  have hgmem : demoToolCall ∈ demoToolResponse.toolCalls := by
    simp [demoToolResponse]
  have homem : demoOToolCall ∈ demoOResponse.toolCalls := by
    simp [demoOResponse]
  refine ⟨hne, ?_, hid, hgnodup, ?_, honodup, ?_⟩
  · exact chat_loop_no_dangling_tool_calls.1 GEntry GRaw demoModelTools demoExec geminiHM
      "session-1" 0 0 [] [] hne
  · exact chat_loop_no_dangling_tool_calls.2.2.2.1 demoExec demoToolResponse hid hgnodup
      demoToolCall hgmem
  · exact chat_loop_no_dangling_tool_calls.2.2.2.2.2 Unit demoExec demoOResponse honodup
      demoOToolCall homem

/-- C2: both loops terminate for every model behavior.  If the model returns
an empty tool-call list at round N (0-based) with N strictly below the
ceiling (128 for `ChatService.runLLMLoop`, 10 for
`OrchestratorService.runLLMLoopNative`), the loop returns exactly that
response after N + 1 model invocations; if the model returns tool calls at
every reachable round, the loop makes exactly the ceiling number of model
invocations and returns the canned apology reply with empty `toolCalls` and
zero usage. -/
theorem llm_loop_termination (α ρ : Type) (model : List α → LLMResponse ρ)
    (exec : ToolCall → ToolExecutionResult) (hm : IChatHistoryManager α ρ)
    (sessionId : String) (now : Nat) (h0 : List α) (store : SessionStore α) :
    (∀ N, N < CHAT_MAX_DEPTH →
      (∀ k, k < N → (model (histAt model exec hm h0 k)).toolCalls ≠ []) →
      (model (histAt model exec hm h0 N)).toolCalls = [] →
      (ChatService.runLLMLoop model exec hm sessionId now h0 store 0).response =
        model (histAt model exec hm h0 N) ∧
      (ChatService.runLLMLoop model exec hm sessionId now h0 store 0).rounds = N + 1) ∧
    ((∀ k, (model (histAt model exec hm h0 k)).toolCalls ≠ []) →
      (ChatService.runLLMLoop model exec hm sessionId now h0 store 0).response =
        cannedChatResponse ρ ∧
      (ChatService.runLLMLoop model exec hm sessionId now h0 store 0).rounds =
        CHAT_MAX_DEPTH) ∧
    (∀ N, N < ORCH_MAX_DEPTH →
      (∀ k, k < N → (model (histAt model exec hm h0 k)).toolCalls ≠ []) →
      (model (histAt model exec hm h0 N)).toolCalls = [] →
      (OrchestratorService.runLLMLoopNative model exec hm h0 0).response =
        model (histAt model exec hm h0 N) ∧
      (OrchestratorService.runLLMLoopNative model exec hm h0 0).rounds = N + 1) ∧
    ((∀ k, (model (histAt model exec hm h0 k)).toolCalls ≠ []) →
      (OrchestratorService.runLLMLoopNative model exec hm h0 0).response =
        cannedOrchResponse ρ ∧
      (OrchestratorService.runLLMLoopNative model exec hm h0 0).rounds =
        ORCH_MAX_DEPTH) := by
  refine ⟨?_, ?_, ?_, ?_⟩
  · intro N hN hk hstop
    exact chatLoopAux_returns_at model exec hm sessionId now N CHAT_MAX_DEPTH h0 store
      hN hk hstop
  · intro hall
    exact chatLoopAux_always_tools model exec hm sessionId now CHAT_MAX_DEPTH h0 store hall
  · intro N hN hk hstop
    exact orchLoopAux_returns_at model exec hm N ORCH_MAX_DEPTH h0 hN hk hstop
  · intro hall
    exact orchLoopAux_always_tools model exec hm ORCH_MAX_DEPTH h0 hall

/-- C2 witness: a model that never calls tools makes the chat loop return its
text response after one round; a model that always calls tools drives the
chat loop to exactly 128 rounds and the canned chat reply, and the
orchestrator loop to exactly 10 rounds and the canned apology. -/
theorem llm_loop_termination_witness :
    (0 < CHAT_MAX_DEPTH) ∧
    (demoModelText (histAt demoModelText demoExec geminiHM [] 0)).toolCalls = [] ∧
    (ChatService.runLLMLoop demoModelText demoExec geminiHM "session-1" 0 [] [] 0).response =
      demoModelText (histAt demoModelText demoExec geminiHM [] 0) ∧
    (ChatService.runLLMLoop demoModelText demoExec geminiHM "session-1" 0 [] [] 0).rounds =
      1 ∧
    (∀ k, (demoModelTools (histAt demoModelTools demoExec geminiHM [] k)).toolCalls ≠ []) ∧
    (ChatService.runLLMLoop demoModelTools demoExec geminiHM "session-1" 0 [] [] 0).response =
      cannedChatResponse GRaw ∧
    (ChatService.runLLMLoop demoModelTools demoExec geminiHM "session-1" 0 [] [] 0).rounds =
      CHAT_MAX_DEPTH ∧
    (OrchestratorService.runLLMLoopNative demoModelTools demoExec geminiHM [] 0).response =
      cannedOrchResponse GRaw ∧
    (OrchestratorService.runLLMLoopNative demoModelTools demoExec geminiHM [] 0).rounds =
      ORCH_MAX_DEPTH := by
  have hstop : (demoModelText (histAt demoModelText demoExec geminiHM [] 0)).toolCalls = [] :=
    rfl
  have hvac : ∀ k, k < 0 →
      (demoModelText (histAt demoModelText demoExec geminiHM [] k)).toolCalls ≠ [] := by
    intro k hk
    exact absurd hk (Nat.not_lt_zero k)
  have hall : ∀ k,
      (demoModelTools (histAt demoModelTools demoExec geminiHM [] k)).toolCalls ≠ [] := by
    intro k
    simp [demoModelTools, demoToolResponse]
  have htext := (llm_loop_termination GEntry GRaw demoModelText demoExec geminiHM
    "session-1" 0 [] []).1 0 (by decide) hvac hstop
  have hchat := (llm_loop_termination GEntry GRaw demoModelTools demoExec geminiHM
    "session-1" 0 [] []).2.1 hall
  have horch := (llm_loop_termination GEntry GRaw demoModelTools demoExec geminiHM
    "session-1" 0 [] []).2.2.2 hall
  exact ⟨by decide, hstop, htext.1, htext.2, hall, hchat.1, hchat.2, horch.1, horch.2⟩
